import Mathlib

/-!
Verification of the client-side background-removal pipeline.

Shallow embedding of the repository's core modules:
* `src/lib/image-validation.ts` — magic-byte format sniffing and dimension checks
* `src/lib/backend-detection.ts` — inference-backend probing
* `src/lib/model-cache.ts` — versioned IndexedDB model cache
* `src/lib/background-removal.ts` — mask thresholding/compositing and the
  cancellation checkpoints of `removeBackground`
* `src/lib/export-utils.ts` — filename generation
* `src/hooks/use-processing.ts` — the processing orchestrator state machine

Blobs are byte lists (`List Nat`, each entry `< 256`), browser capabilities are
explicit environment records, and the stateful hook is a step function over an
explicit state and event type.
-/

namespace RemoveBG

/-! ### Image validation (`src/lib/image-validation.ts`) -/

inductive SupportedImageFormat
  | png
  | jpeg
  | webp
  | gif
deriving DecidableEq, Repr

/-- One magic-byte signature: the byte pattern plus an optional per-byte mask
(`mask?.[i] ?? 0xff` in the source). -/
structure MagicSignature where
  bytes : List Nat
  mask : Option (List Nat)
deriving DecidableEq, Repr

/-- The PNG signature `89 50 4E 47 0D 0A 1A 0A`. -/
def pngSig : List Nat := [0x89, 0x50, 0x4e, 0x47, 0x0d, 0x0a, 0x1a, 0x0a]

/-- A JPEG signature `FF D8 FF` followed by marker byte `m`. -/
def jpegSig (m : Nat) : List Nat := [0xff, 0xd8, 0xff, m]

/-- The WebP signature: `RIFF`, four file-size bytes, `WEBP`. -/
def webpSigBytes : List Nat :=
  [0x52, 0x49, 0x46, 0x46, 0x00, 0x00, 0x00, 0x00, 0x57, 0x45, 0x42, 0x50]

/-- The WebP mask: the four file-size bytes are masked out of the compare. -/
def webpSigMask : List Nat :=
  [0xff, 0xff, 0xff, 0xff, 0x00, 0x00, 0x00, 0x00, 0xff, 0xff, 0xff, 0xff]

/-- The GIF87a signature. -/
def gif87Sig : List Nat := [0x47, 0x49, 0x46, 0x38, 0x37, 0x61]

/-- The GIF89a signature. -/
def gif89Sig : List Nat := [0x47, 0x49, 0x46, 0x38, 0x39, 0x61]

/-- The `MAGIC_BYTES` table, in the source's insertion order
(png, jpeg, webp, gif). -/
def MAGIC_BYTES : List (SupportedImageFormat × List MagicSignature) :=
  [ (.png, [⟨pngSig, none⟩]),
    (.jpeg,
      [ ⟨jpegSig 0xe0, none⟩,
        ⟨jpegSig 0xe1, none⟩,
        ⟨jpegSig 0xe2, none⟩,
        ⟨jpegSig 0xe8, none⟩,
        ⟨jpegSig 0xdb, none⟩ ]),
    (.webp, [⟨webpSigBytes, some webpSigMask⟩]),
    (.gif,
      [ ⟨gif87Sig, none⟩,
        ⟨gif89Sig, none⟩ ]) ]

/-- `mask?.[i] ?? 0xff`: a missing mask, or a missing mask entry, means 0xff. -/
def maskByteAt (mask : Option (List Nat)) (i : Nat) : Nat :=
  match mask with
  | none => 0xff
  | some m => m.getD i 0xff

/-- `matchesSignature(bytes, signature, mask)`: length guard, then the masked
byte-for-byte comparison loop. -/
def matchesSignature (bytes sigBytes : List Nat) (mask : Option (List Nat)) : Bool :=
  if bytes.length < sigBytes.length then false
  else
    (List.range sigBytes.length).all fun i =>
      bytes.getD i 0 &&& maskByteAt mask i ==
        sigBytes.getD i 0 &&& maskByteAt mask i

/-- `detectImageFormat`: reads the first 12 bytes, then scans `MAGIC_BYTES`
in order, returning the first format with a matching signature. -/
def detectImageFormat (file : List Nat) : Option SupportedImageFormat :=
  let bytes := file.take 12
  (MAGIC_BYTES.find? fun p => p.2.any fun sig =>
    matchesSignature bytes sig.bytes sig.mask).map Prod.fst

structure ValidationResult where
  valid : Bool
  format : Option SupportedImageFormat
  error : Option String
deriving DecidableEq, Repr

def unsupportedFormatError : String :=
  "Unsupported image format. Please use PNG, JPEG, WebP, or GIF."

/-- `validateImageType`. -/
def validateImageType (file : List Nat) : ValidationResult :=
  match detectImageFormat file with
  | none => ⟨false, none, some unsupportedFormatError⟩
  | some f => ⟨true, some f, none⟩

structure ImageDimensions where
  width : Nat
  height : Nat
deriving DecidableEq, Repr

structure DimValidation where
  valid : Bool
  error : Option String
  warnings : List String
deriving DecidableEq, Repr

def MIN_DIMENSION : Nat := 10
def MAX_DIMENSION : Nat := 8192
def LARGE_FILE_THRESHOLD : Nat := 20 * 1024 * 1024

def tooSmallError : String :=
  "Image is too small. Minimum dimensions are 10x10 pixels."

def tooLargeWarning : String :=
  "Image dimensions exceed 8192x8192. Processing may be slow."

/-- `validateDimensions`. -/
def validateDimensions (d : ImageDimensions) : DimValidation :=
  if d.width < MIN_DIMENSION || d.height < MIN_DIMENSION then
    ⟨false, some tooSmallError, []⟩
  else if d.width > MAX_DIMENSION || d.height > MAX_DIMENSION then
    ⟨true, none, [tooLargeWarning]⟩
  else
    ⟨true, none, []⟩

/-- The large-file warning string. The source renders the size via the
floating-point `toFixed(1)`; here the one decimal digit is computed by
truncation on tenths of a megabyte, which only affects the rendered digits,
never whether the warning is emitted. -/
def largeFileWarning (fileSize : Nat) : String :=
  let tenths := fileSize * 10 / (1024 * 1024)
  "Large file (" ++ toString (tenths / 10) ++ "." ++ toString (tenths % 10) ++
    "MB). Processing may take longer."

structure DetailedValidation where
  valid : Bool
  format : Option SupportedImageFormat
  error : Option String
  dimensions : Option ImageDimensions
  fileSize : Nat
  warnings : List String
deriving DecidableEq, Repr

/-- `validateImage`. Decoding the image happens in the browser
(`getImageDimensions`); its outcome — dimensions, or the decode-failure
message — is passed in as `decode`. -/
def validateImage (file : List Nat) (fileSize : Nat)
    (decode : Except String ImageDimensions) : DetailedValidation :=
  let warnings : List String :=
    if fileSize > LARGE_FILE_THRESHOLD then [largeFileWarning fileSize] else []
  let typeResult := validateImageType file
  if !typeResult.valid then
    ⟨false, none, typeResult.error, none, fileSize, warnings⟩
  else
    match decode with
    | .error msg => ⟨false, typeResult.format, some msg, none, fileSize, warnings⟩
    | .ok dims =>
      let dimResult := validateDimensions dims
      if !dimResult.valid then
        ⟨false, typeResult.format, dimResult.error, some dims, fileSize,
          warnings ++ dimResult.warnings⟩
      else
        ⟨true, typeResult.format, none, some dims, fileSize,
          warnings ++ dimResult.warnings⟩

/-! ### Export utilities (`src/lib/export-utils.ts`) -/

inductive ExportFormat
  | png
  | webp
deriving DecidableEq, Repr

/-- The character class `[a-zA-Z0-9-_]` of the cleaning regex. -/
def isAllowedChar (c : Char) : Bool :=
  c.isAlpha || c.isDigit || c == '-' || c == '_'

/-- `originalFilename.replace(/\.[^/.]+$/, '')`: drop a trailing
`.ext` where `ext` is nonempty and contains neither `.` nor `/`. -/
def stripExtension (s : List Char) : List Char :=
  let afterLastDot := (s.reverse.takeWhile (fun c => c ≠ '.')).reverse
  if afterLastDot.length = s.length then s
  else if afterLastDot.length = 0 then s
  else if afterLastDot.contains '/' then s
  else s.take (s.length - afterLastDot.length - 1)

/-- `.replace(/[^a-zA-Z0-9-_]/g, '-')`. -/
def replaceDisallowed (s : List Char) : List Char :=
  s.map fun c => if isAllowedChar c then c else '-'

/-- Worker for the dash-collapsing replace: `prevDash` records whether the
previous emitted character was part of a dash run. -/
def collapseDashesAux : List Char → Bool → List Char
  | [], _ => []
  | c :: rest, prevDash =>
    if c = '-' then
      if prevDash then collapseDashesAux rest true
      else '-' :: collapseDashesAux rest true
    else c :: collapseDashesAux rest false

/-- The second replace of the source: collapse each run of dashes to a
single dash. -/
def collapseDashes (s : List Char) : List Char :=
  collapseDashesAux s false

/-- `generateFilename(originalFilename, format)`. -/
def generateFilename (originalFilename : Option String) (format : ExportFormat) :
    String :=
  let ext := if format = ExportFormat.webp then "webp" else "png"
  match originalFilename with
  | none => "image-nobg." ++ ext
  | some name =>
    let baseName := stripExtension name.data
    let cleanName := collapseDashes (replaceDisallowed baseName)
    String.mk cleanName ++ "-nobg." ++ ext

/-! ### Backend detection (`src/lib/backend-detection.ts`) -/

inductive Backend
  | webgpu
  | webgl
  | cpu
deriving DecidableEq, Repr

/-- The browser capabilities consulted by the probes.  Each field reflects one
observable outcome of the corresponding source check; `requestDeviceThrows` and
`getContextThrows` stand for the probe throwing (swallowed by the source's
try/catch). -/
structure BrowserEnv where
  hasNavigator : Bool
  gpuPresent : Bool
  adapterPresent : Bool
  requestDeviceThrows : Bool
  devicePresent : Bool
  hasDocument : Bool
  getContextThrows : Bool
  webgl2 : Bool
  webgl1 : Bool
deriving DecidableEq, Repr

/-- `isWebGPUAvailable`. -/
def isWebGPUAvailable (env : BrowserEnv) : Bool :=
  if !env.hasNavigator then false
  else if !env.gpuPresent then false
  else if !env.adapterPresent then false
  else if env.requestDeviceThrows then false
  else if !env.devicePresent then false
  else true

/-- `isWebGLAvailable`. -/
def isWebGLAvailable (env : BrowserEnv) : Bool :=
  if !env.hasDocument then false
  else if env.getContextThrows then false
  else env.webgl2 || env.webgl1

/-- `detectBestBackend`: probes the environment passed to this call.  The
source function holds no module-level state — every call runs the probes
anew. -/
def detectBestBackend (env : BrowserEnv) : Backend :=
  if isWebGPUAvailable env then .webgpu
  else if isWebGLAvailable env then .webgl
  else .cpu

/-- The module-level state of `src/lib/background-removal.ts`:
`model`/`processor` (collapsed to the flag `modelLoaded`) and
`currentBackend`. -/
structure PipelineState where
  modelLoaded : Bool
  currentBackend : Option Backend
deriving DecidableEq, Repr

def initialPipeline : PipelineState := ⟨false, none⟩

/-- `initializeModel`, observed at completion: if the model and processor are
already present it returns at once; otherwise it detects the backend (the one
probe of the pipeline) and installs the loaded handles.  The returned flag
records whether this call probed the environment. -/
def initializeModel (env : BrowserEnv) (s : PipelineState) :
    PipelineState × Bool :=
  if s.modelLoaded then (s, false)
  else (⟨true, some (detectBestBackend env)⟩, true)

/-- `resetPipeline`. -/
def resetPipeline : PipelineState := initialPipeline

/-! ### Model cache (`src/lib/model-cache.ts`) -/

structure CachedModel where
  key : String
  version : String
  data : List Nat
  timestamp : Nat
deriving DecidableEq, Repr

def MODEL_KEY : String := "rmbg-1.4"

/-- The `MODEL_VERSION` constant of the current build is `"1.0.0"`.  The cache
operations below take the build's expected version as the `expected` argument
so that the behaviour after a version bump (a later build with a different
constant reading a store written by this one) is expressible. -/
def MODEL_VERSION : String := "1.0.0"

/-- The `models` object store, keyed by the record's `key` field. -/
abbrev CacheStore := List CachedModel

def storeGet (db : CacheStore) (k : String) : Option CachedModel :=
  db.find? fun c => c.key == k

def storePut (db : CacheStore) (c : CachedModel) : CacheStore :=
  (db.filter fun d => d.key != c.key) ++ [c]

def storeDelete (db : CacheStore) (k : String) : CacheStore :=
  db.filter fun d => d.key != k

/-- How the persistence layer can fail: `indexedDB` missing entirely, the
`open` request erroring, or the store request erroring. -/
structure IdbEnv where
  idbUndefined : Bool
  openFails : Bool
  requestFails : Bool
deriving DecidableEq, Repr

/-- `openDatabase`: rejects when `indexedDB` is undefined or the open request
errors. -/
def openDatabase (env : IdbEnv) : Except String Unit :=
  if env.idbUndefined then .error "IndexedDB is not available"
  else if env.openFails then .error "Failed to open IndexedDB"
  else .ok ()

/-- `isModelCached`: any failure resolves to `false`; otherwise the record
must exist and its stored version must equal the expected one. -/
def isModelCached (env : IdbEnv) (expected : String) (db : CacheStore) : Bool :=
  match openDatabase env with
  | .error _ => false
  | .ok _ =>
    if env.requestFails then false
    else
      match storeGet db MODEL_KEY with
      | some cached => cached.version == expected
      | none => false

/-- `getModelFromCache`: any failure resolves to `none`; a version mismatch
also resolves to `none`. -/
def getModelFromCache (env : IdbEnv) (expected : String) (db : CacheStore) :
    Option (List Nat) :=
  match openDatabase env with
  | .error _ => none
  | .ok _ =>
    if env.requestFails then none
    else
      match storeGet db MODEL_KEY with
      | some cached => if cached.version == expected then some cached.data else none
      | none => none

/-- `saveModelToCache`: stamps the entry with the current expected version and
the current time.  A failure to open the database is rethrown wrapped
(`catch` block), and a failing put request rejects. -/
def saveModelToCache (env : IdbEnv) (expected : String) (data : List Nat)
    (now : Nat) (db : CacheStore) : Except String CacheStore :=
  match openDatabase env with
  | .error e => .error ("Failed to save model to cache: Error: " ++ e)
  | .ok _ =>
    if env.requestFails then .error "Failed to save model to cache"
    else .ok (storePut db ⟨MODEL_KEY, expected, data, now⟩)

/-- `clearModelCache`: same failure shape as `saveModelToCache`. -/
def clearModelCache (env : IdbEnv) (db : CacheStore) : Except String CacheStore :=
  match openDatabase env with
  | .error e => .error ("Failed to clear model cache: Error: " ++ e)
  | .ok _ =>
    if env.requestFails then .error "Failed to clear model cache"
    else .ok (storeDelete db MODEL_KEY)

structure CacheInfo where
  isCached : Bool
  version : Option String
  timestamp : Option Nat
  sizeBytes : Option Nat
deriving DecidableEq, Repr

def emptyCacheInfo : CacheInfo := ⟨false, none, none, none⟩

/-- `getCacheInfo`: failures resolve to the empty info; a present record is
reported with its stored version even when stale, but `isCached` compares
against the expected version. -/
def getCacheInfo (env : IdbEnv) (expected : String) (db : CacheStore) : CacheInfo :=
  match openDatabase env with
  | .error _ => emptyCacheInfo
  | .ok _ =>
    if env.requestFails then emptyCacheInfo
    else
      match storeGet db MODEL_KEY with
      | some cached =>
        ⟨cached.version == expected, some cached.version, some cached.timestamp,
          some cached.data.length⟩
      | none => emptyCacheInfo

/-! ### Mask thresholding and compositing (`src/lib/background-removal.ts`) -/

/-- `const thresholdValue = (1 - threshold) * 255`. -/
def thresholdValue (threshold : ℚ) : ℚ := (1 - threshold) * 255

/-- The per-pixel alpha assignment of the compositing loop:
`maskValue >= thresholdValue ? 255 : 0`.  `maskValue` is the `uint8` red
channel of the sigmoid-scaled, resampled mask. -/
def maskAlpha (threshold : ℚ) (maskValue : Nat) : Nat :=
  if thresholdValue threshold ≤ (maskValue : ℚ) then 255 else 0

/-- The compositing loop over the flat RGBA array: for every pixel index
`i ≡ 0 [MOD 4]` the loop writes `pixelData[i+3]` from `maskData[i]`; the
R, G and B entries are left untouched. -/
def compositeLoop (pixelData maskData : List Nat) (threshold : ℚ) : List Nat :=
  pixelData.mapIdx fun j v =>
    if j % 4 = 3 then maskAlpha threshold (maskData.getD (j - 3) 0) else v

/-- The alpha channel produced for a list of per-pixel mask values. -/
def alphaChannel (threshold : ℚ) (mask : List Nat) : List Nat :=
  mask.map (maskAlpha threshold)

/-- Number of fully transparent pixels among the produced alphas. -/
def countTransparent (alphas : List Nat) : Nat :=
  alphas.count 0

/-! ### Cancellation checkpoints of `removeBackground`

`removeBackground` consults `signal.aborted` at four places: before
`initializeModel`, after it, after preprocessing, and after inference.  The
work between consecutive checkpoints is recorded as steps.  The signal is
modelled by the instant `abortAt` at which it becomes aborted (`none` = never):
a checkpoint at instant `t` observes the abort iff `abortAt ≤ t`.  Checkpoint
instants: before-init = 0, after-init = 1, after-preprocess = 2,
after-inference = 3. -/

inductive RBStep
  | initModel
  | decodeImage
  | preprocess
  | inference
  | composite
deriving DecidableEq, Repr

def abortedAt (abortAt : Option Nat) (t : Nat) : Bool :=
  match abortAt with
  | none => false
  | some a => a ≤ t

def abortError : String := "Operation aborted"

deriving instance DecidableEq for Except

structure RBOutcome where
  result : Except String Unit
  steps : List RBStep
deriving DecidableEq, Repr

/-- The checkpoint structure of `removeBackground`, as written in the source:
four abort checks interleaved with the pipeline stages. -/
def removeBackgroundRun (abortAt : Option Nat) : RBOutcome :=
  if abortedAt abortAt 0 then ⟨.error abortError, []⟩
  else if abortedAt abortAt 1 then ⟨.error abortError, [.initModel]⟩
  else if abortedAt abortAt 2 then
    ⟨.error abortError, [.initModel, .decodeImage, .preprocess]⟩
  else if abortedAt abortAt 3 then
    ⟨.error abortError, [.initModel, .decodeImage, .preprocess, .inference]⟩
  else ⟨.ok (), [.initModel, .decodeImage, .preprocess, .inference, .composite]⟩

/-- Modelled from the spec: the claimed checkpoint structure, with the signal
consulted only before and immediately after model initialization and at no
other point. -/
def removeBackgroundClaimRun (abortAt : Option Nat) : RBOutcome :=
  if abortedAt abortAt 0 then ⟨.error abortError, []⟩
  else if abortedAt abortAt 1 then ⟨.error abortError, [.initModel]⟩
  else ⟨.ok (), [.initModel, .decodeImage, .preprocess, .inference, .composite]⟩

/-! ### Processing orchestrator (`src/hooks/use-processing.ts`)

Files, blobs and object URLs are identifiers (`Nat`).  The hook's React state
and its refs form `Orch`; each externally observable action of the hook is an
`OEvent` applied by `orchStep`.  `revoked` logs every `URL.revokeObjectURL`
call, and `abortedCtrls` the controllers whose signal has been aborted.
Asynchronous completions (`resolveOk`, `resolveErr`, ...) carry the id of the
controller whose signal the continuation captured; as in the source, the
continuation checks only `signal.aborted` before touching state. -/

inductive ProcessingStatus
  | idle
  | loading
  | processing
  | complete
  | error
deriving DecidableEq, Repr

structure OriginalImage where
  file : Nat
  url : Nat
deriving DecidableEq, Repr

structure ProcessedImage where
  blob : Nat
  url : Nat
  width : Nat
  height : Nat
deriving DecidableEq, Repr

structure PState where
  status : ProcessingStatus
  progress : ℚ
  originalImage : Option OriginalImage
  processedImage : Option ProcessedImage
  error : Option String
  processingTimeMs : Option Nat
deriving DecidableEq, Repr

def initialPState : PState := ⟨.idle, 0, none, none, none, none⟩

structure Orch where
  st : PState
  ctrl : Option Nat
  abortedCtrls : List Nat
  originalUrlRef : Option Nat
  processedUrlRef : Option Nat
  currentFile : Option Nat
  nextCtrl : Nat
  nextUrl : Nat
  revoked : List Nat
deriving DecidableEq, Repr

def initialOrch : Orch := ⟨initialPState, none, [], none, none, none, 0, 0, []⟩

/-- `abortControllerRef.current?.abort()`. -/
def abortCurrent (o : Orch) : Orch :=
  match o.ctrl with
  | some c => { o with abortedCtrls := o.abortedCtrls ++ [c] }
  | none => o

/-- `cleanupUrls`: revoke and clear both URL refs. -/
def cleanupUrls (o : Orch) : Orch :=
  let o1 :=
    match o.originalUrlRef with
    | some u => { o with revoked := o.revoked ++ [u], originalUrlRef := none }
    | none => o
  match o1.processedUrlRef with
  | some u => { o1 with revoked := o1.revoked ++ [u], processedUrlRef := none }
  | none => o1

inductive OEvent
  /-- Synchronous prefix of `processImage(file)`. -/
  | processImageStart (file : Nat)
  /-- An `onProgress(p)` callback delivered during `processImage`. -/
  | progressUpdate (p : ℚ)
  /-- `removeBackground` resolving for controller `c` inside `processImage`. -/
  | resolveOk (c blob w h timeMs : Nat)
  /-- `removeBackground` rejecting with `msg` for controller `c` inside
  `processImage`. -/
  | resolveErr (c : Nat) (msg : String)
  /-- `cancel()`. -/
  | cancelEvt
  /-- `reset()`. -/
  | resetEvt
  /-- Synchronous prefix of `reprocessWithThreshold(threshold)`. -/
  | reprocessStart (threshold : ℚ)
  /-- An `onProgress(p)` callback delivered during `reprocessWithThreshold`. -/
  | reprocessProgress (p : ℚ)
  /-- `removeBackground` resolving for controller `c` inside
  `reprocessWithThreshold`. -/
  | reprocessOk (c blob w h timeMs : Nat)
  /-- `removeBackground` rejecting for controller `c` inside
  `reprocessWithThreshold`. -/
  | reprocessErr (c : Nat) (msg : String)
  /-- Synchronous prefix of `preload()` when the model is not yet loaded. -/
  | preloadStart
  /-- A `preloadModel` progress callback. -/
  | preloadProgress (p : ℚ)
  /-- `preloadModel` resolving. -/
  | preloadDone
  /-- `preloadModel` rejecting with `msg`. -/
  | preloadFail (msg : String)
deriving DecidableEq, Repr

def orchStep (o : Orch) (e : OEvent) : Orch :=
  match e with
  | .processImageStart file =>
    let o1 := cleanupUrls (abortCurrent o)
    let c := o1.nextCtrl
    let u := o1.nextUrl
    { o1 with
      currentFile := some file
      ctrl := some c
      nextCtrl := o1.nextCtrl + 1
      originalUrlRef := some u
      nextUrl := o1.nextUrl + 1
      st := ⟨.loading, 0, some ⟨file, u⟩, none, none, none⟩ }
  | .progressUpdate p =>
    { o with st :=
      { o.st with
        status := if p < 9/10 then .loading else .processing
        progress := p } }
  | .resolveOk c blob w h timeMs =>
    if o.abortedCtrls.contains c then o
    else
      let u := o.nextUrl
      { o with
        processedUrlRef := some u
        nextUrl := o.nextUrl + 1
        -- the closure writes the `file`/`originalUrl` it captured; they
        -- coincide with the current state because any later
        -- `processImageStart`/`reprocessStart`/`cancel`/`reset` would have
        -- aborted controller `c`
        st := ⟨.complete, 1, o.st.originalImage, some ⟨blob, u, w, h⟩, none,
          some timeMs⟩ }
  | .resolveErr c msg =>
    if o.abortedCtrls.contains c then o
    else
      { o with st :=
        { o.st with status := .error, progress := 0, error := some msg } }
  | .cancelEvt =>
    let o1 := abortCurrent o
    { o1 with
      ctrl := none
      st := { o1.st with status := .idle, progress := 0 } }
  | .resetEvt =>
    let o1 := cleanupUrls (abortCurrent o)
    { o1 with ctrl := none, st := initialPState }
  | .reprocessStart _threshold =>
    match o.currentFile with
    | none => o
    | some _ =>
      let o1 := abortCurrent o
      let o2 :=
        match o1.processedUrlRef with
        | some u => { o1 with revoked := o1.revoked ++ [u], processedUrlRef := none }
        | none => o1
      let c := o2.nextCtrl
      { o2 with
        ctrl := some c
        nextCtrl := o2.nextCtrl + 1
        st := { o2.st with
          status := .processing
          progress := 7/10
          processedImage := none
          error := none } }
  | .reprocessProgress p =>
    if 7/10 ≤ p then { o with st := { o.st with progress := p } } else o
  | .reprocessOk c blob w h timeMs =>
    if o.abortedCtrls.contains c then o
    else
      let u := o.nextUrl
      { o with
        processedUrlRef := some u
        nextUrl := o.nextUrl + 1
        st := { o.st with
          status := .complete
          progress := 1
          processedImage := some ⟨blob, u, w, h⟩
          processingTimeMs := some timeMs } }
  | .reprocessErr c msg =>
    if o.abortedCtrls.contains c then o
    else
      { o with st := { o.st with status := .error, error := some msg } }
  | .preloadStart =>
    { o with st := { o.st with status := .loading, progress := 0 } }
  | .preloadProgress p =>
    { o with st := { o.st with progress := p } }
  | .preloadDone =>
    { o with st := { o.st with status := .idle, progress := 0 } }
  | .preloadFail msg =>
    { o with st := { o.st with status := .error, error := some msg } }

/-- Apply a list of events in order. -/
def orchRun (o : Orch) (es : List OEvent) : Orch :=
  es.foldl orchStep o

/-! ### Helper lemmas -/

/-- Every character emitted by the dash-collapsing pass occurs in its input. -/
theorem mem_collapseDashesAux {x : Char} :
    ∀ (l : List Char) (b : Bool), x ∈ collapseDashesAux l b → x ∈ l := by
  intro l
  induction l with
  | nil => intro b h; simp [collapseDashesAux] at h
  | cons c rest ih =>
    intro b h
    unfold collapseDashesAux at h
    by_cases hc : c = '-'
    · subst hc
      simp only [if_pos rfl] at h
      cases b with
      | true => exact List.mem_cons_of_mem _ (ih _ h)
      | false =>
        simp only [Bool.false_eq_true, if_false] at h
        rcases List.mem_cons.mp h with h | h
        · exact h ▸ List.mem_cons_self _ _
        · exact List.mem_cons_of_mem _ (ih _ h)
    · simp only [if_neg hc] at h
      rcases List.mem_cons.mp h with h | h
      · exact h ▸ List.mem_cons_self _ _
      · exact List.mem_cons_of_mem _ (ih _ h)

/-- The collapsing pass started with `prevDash = true` never emits a leading
dash. -/
theorem collapseDashesAux_true_head :
    ∀ l : List Char, (collapseDashesAux l true).head? ≠ some '-' := by
  intro l
  induction l with
  | nil => simp [collapseDashesAux]
  | cons c rest ih =>
    unfold collapseDashesAux
    by_cases hc : c = '-'
    · simpa [hc] using ih
    · simp only [if_neg hc, List.head?_cons, ne_eq, Option.some.injEq]
      exact hc

/-- Adjacent-dash detector. -/
def hasDoubleDash : List Char → Bool
  | [] => false
  | [_] => false
  | a :: b :: rest => (a = '-' && b = '-') || hasDoubleDash (b :: rest)

/-- The dash-collapsing pass never emits two adjacent dashes. -/
theorem hasDoubleDash_collapseDashesAux :
    ∀ (l : List Char) (b : Bool), hasDoubleDash (collapseDashesAux l b) = false := by
  intro l
  induction l with
  | nil => intro b; rfl
  | cons c rest ih =>
    intro b
    unfold collapseDashesAux
    by_cases hc : c = '-'
    · subst hc
      cases b with
      | true => simpa using ih true
      | false =>
        simp only [if_pos rfl, Bool.false_eq_true, if_false]
        have hhead := collapseDashesAux_true_head rest
        have htail := ih true
        cases htc : collapseDashesAux rest true with
        | nil => rfl
        | cons d t =>
          rw [htc] at hhead htail
          simp only [List.head?_cons, ne_eq, Option.some.injEq] at hhead
          unfold hasDoubleDash
          simp [htail, hhead]
    · simp only [if_neg hc]
      have htail := ih false
      cases htc : collapseDashesAux rest false with
      | nil => rfl
      | cons d t =>
        rw [htc] at htail
        unfold hasDoubleDash
        simp [htail, hc]

/-- Every character of the cleaned base name is in the allowed class. -/
theorem cleanName_chars_allowed (name : List Char) :
    ∀ x ∈ collapseDashes (replaceDisallowed (stripExtension name)),
      isAllowedChar x = true := by
  intro x hx
  have hx' := mem_collapseDashesAux _ _ hx
  rcases List.mem_map.mp hx' with ⟨c, -, hc⟩
  by_cases h : isAllowedChar c = true
  · rw [← hc, if_pos h]; exact h
  · rw [← hc, if_neg h]; decide

/-! ### C9: generateFilename -/

/-- C9: `generateFilename` is total and deterministic: it strips the original
name's extension, replaces every character outside `[A-Za-z0-9_-]` with `-`,
collapses consecutive `-` into one, and appends `-nobg.<ext>`; absent an
original name the fixed base `image` is used.  In particular
`generateFilename ("my photo (1).jpg", png) = "my-photo-1--nobg.png"` and
`generateFilename (none, webp) = "image-nobg.webp"`.  Totality and determinism
are inherent (it is a Lean function); the replace/collapse conjuncts are
witnessed by the cleaned base containing only allowed characters and no
adjacent dashes. -/
theorem generateFilename_spec :
    generateFilename (some "my photo (1).jpg") .png = "my-photo-1--nobg.png" ∧
    generateFilename none .webp = "image-nobg.webp" ∧
    (∀ name : String,
      (∀ x ∈ collapseDashes (replaceDisallowed (stripExtension name.data)),
        isAllowedChar x = true) ∧
      hasDoubleDash (collapseDashes (replaceDisallowed (stripExtension name.data))) =
        false) := by
  refine ⟨by decide, by decide, fun name => ⟨cleanName_chars_allowed name.data, ?_⟩⟩
  exact hasDoubleDash_collapseDashesAux _ _

/-- Witness for C9 at a concrete input: the third conjunct applied to the
name `"a!b.png"`, whose cleaned base is `['a', '-', 'b']`. -/
theorem generateFilename_spec_witness :
    isAllowedChar '-' = true :=
  (generateFilename_spec.2.2 "a!b.png").1 '-' (by decide)

/-! ### C6: cancellation checkpoints of `removeBackground` -/

/-- C6 counterexample: the claim says the signal is consulted at exactly two
checkpoints (before and immediately after model initialization) and never at
any other point — i.e. that `removeBackgroundRun` coincides with
`removeBackgroundClaimRun`.  An abort raised during preprocessing
(`abortAt = 2`, after the post-init checkpoint) is observed by the source's
third check: the call fails with the cancellation error and inference never
runs, while under the claimed two-checkpoint discipline the call would
succeed. -/
theorem removeBackground_checkpoints_counterexample :
    ¬(∀ a : Option Nat, removeBackgroundRun a = removeBackgroundClaimRun a) := by
  intro h
  have h2 := h (some 2)
  have hcode : removeBackgroundRun (some 2) =
      ⟨.error abortError, [.initModel, .decodeImage, .preprocess]⟩ := by decide
  have hclaim : removeBackgroundClaimRun (some 2) =
      ⟨.ok (), [.initModel, .decodeImage, .preprocess, .inference, .composite]⟩ := by
    decide
  rw [hcode, hclaim] at h2
  simp at h2

/-- C6 amended: within one `removeBackground` call the cancellation signal is
checked at four fixed checkpoints — before model initialization, after model
initialization, after preprocessing, and after inference — and at no other
point: an abort is observed iff it is raised by instant 3, and the work
completed at each observation is exactly the work preceding the next
checkpoint.  In particular an abort raised mid-inference (`abortAt = 3`) is
only observed after inference completes. -/
theorem removeBackground_four_checkpoints :
    (∀ a : Nat,
      ((removeBackgroundRun (some a)).result = .error abortError ↔ a ≤ 3)) ∧
    removeBackgroundRun none =
      ⟨.ok (), [.initModel, .decodeImage, .preprocess, .inference, .composite]⟩ ∧
    (removeBackgroundRun (some 0)).steps = [] ∧
    (removeBackgroundRun (some 1)).steps = [.initModel] ∧
    (removeBackgroundRun (some 2)).steps = [.initModel, .decodeImage, .preprocess] ∧
    (removeBackgroundRun (some 3)).steps =
      [.initModel, .decodeImage, .preprocess, .inference] ∧
    RBStep.inference ∈ (removeBackgroundRun (some 3)).steps ∧
    (removeBackgroundRun (some 3)).result = .error abortError := by
  refine ⟨fun a => ?_, by decide, by decide, by decide, by decide, by decide,
    by decide, by decide⟩
  unfold removeBackgroundRun abortedAt
  rcases Nat.lt_or_ge a 4 with h | h
  · interval_cases a <;> simp
  · have h0 : ¬ a ≤ 0 := by omega
    have h1 : ¬ a ≤ 1 := by omega
    have h2 : ¬ a ≤ 2 := by omega
    have h3 : ¬ a ≤ 3 := by omega
    simp [h0, h1, h2, h3]

/-! ### C5: backend detection memoization -/

/-- C5 counterexample: `detectBestBackend` is not memoized.  If the detected
backend were held in process-wide state and returned by every subsequent call
without re-probing, a second call could not depend on the environment at that
call.  Concretely: in an environment with neither WebGPU nor WebGL the call
returns `cpu`; a later call in an environment where a WebGL context exists
returns `webgl`, not the previously computed `cpu`. -/
theorem detectBestBackend_memoized_counterexample :
    detectBestBackend ⟨true, false, false, false, false, true, false, false, false⟩ =
      .cpu ∧
    detectBestBackend ⟨true, false, false, false, false, true, false, false, true⟩ =
      .webgl ∧
    ¬(∀ env1 env2 : BrowserEnv, detectBestBackend env2 = detectBestBackend env1) := by
  refine ⟨by decide, by decide, fun h => ?_⟩
  have := h ⟨true, false, false, false, false, true, false, false, false⟩
    ⟨true, false, false, false, false, true, false, false, true⟩
  revert this
  decide

/-- C5 amended: `detectBestBackend` itself re-probes the environment on every
call and returns the backend supported by the environment at that call; the
once-per-lifetime caching the spec describes lives in the background-removal
module: `initializeModel` probes exactly once, stores the detected backend in
`currentBackend`, every later `initializeModel` call returns without probing
and leaves the stored backend unchanged, and only `resetPipeline` invalidates
it. -/
theorem detectBestBackend_probe_per_call :
    (∀ env : BrowserEnv, detectBestBackend env =
      if isWebGPUAvailable env then .webgpu
      else if isWebGLAvailable env then .webgl
      else .cpu) ∧
    (∀ env : BrowserEnv, initializeModel env initialPipeline =
      (⟨true, some (detectBestBackend env)⟩, true)) ∧
    (∀ env1 env2 : BrowserEnv,
      initializeModel env2 (initializeModel env1 initialPipeline).1 =
        ((initializeModel env1 initialPipeline).1, false)) ∧
    (∀ (env : BrowserEnv) (s : PipelineState), s.modelLoaded = true →
      initializeModel env s = (s, false)) ∧
    resetPipeline.modelLoaded = false := by
  refine ⟨fun env => rfl, fun env => rfl, fun env1 env2 => rfl,
    fun env s h => ?_, rfl⟩
  unfold initializeModel
  rw [if_pos h]

/-- Witness for C5's amended theorem: a loaded pipeline is returned unchanged
and unprobed. -/
theorem detectBestBackend_probe_per_call_witness :
    initializeModel ⟨true, false, false, false, false, true, false, false, false⟩
      ⟨true, some .cpu⟩ = (⟨true, some .cpu⟩, false) :=
  detectBestBackend_probe_per_call.2.2.2.1 _ ⟨true, some .cpu⟩ rfl

/-! ### C3/C4: model cache -/

/-- A `put` is found again under its own key: the records kept by the filter
all have a different key, so the lookup reaches the appended record. -/
theorem storeGet_storePut (db : CacheStore) (c : CachedModel) :
    storeGet (storePut db c) c.key = some c := by
  unfold storeGet storePut
  induction db with
  | nil => simp
  | cons d rest ih =>
    by_cases h : d.key == c.key
    · simp [List.filter_cons, bne, h]
    · simp [List.filter_cons, bne, h, List.find?_cons]

/-- C3: a `saveModelToCache(bytes)` followed by `getModelFromCache()` under the
same expected version returns byte-identical content; a stored record whose
version differs from the expected version makes `getModelFromCache` return
`none` and `isModelCached` return `false`, exactly as if nothing were stored,
even though the record is still present (its stored version is still reported
by `getCacheInfo`). -/
theorem modelCache_roundtrip_and_version_mismatch :
    ∀ (env : IdbEnv) (db : CacheStore) (data : List Nat) (now : Nat)
      (expected : String),
      env.idbUndefined = false → env.openFails = false → env.requestFails = false →
      saveModelToCache env expected data now db =
        .ok (storePut db ⟨MODEL_KEY, expected, data, now⟩) ∧
      getModelFromCache env expected (storePut db ⟨MODEL_KEY, expected, data, now⟩) =
        some data ∧
      (∀ c : CachedModel, storeGet db MODEL_KEY = some c → c.version ≠ expected →
        getModelFromCache env expected db = none ∧
        isModelCached env expected db = false ∧
        (getCacheInfo env expected db).isCached = false ∧
        (getCacheInfo env expected db).version = some c.version) := by
  intro env db data now expected h1 h2 h3
  have henv : openDatabase env = .ok () := by
    unfold openDatabase
    rw [h1, h2]
    simp
  refine ⟨?_, ?_, ?_⟩
  · unfold saveModelToCache
    rw [henv, h3]
    simp
  · unfold getModelFromCache
    rw [henv, h3]
    have := storeGet_storePut db ⟨MODEL_KEY, expected, data, now⟩
    simp only [this]
    simp
  · intro c hc hv
    unfold getModelFromCache isModelCached getCacheInfo
    rw [henv, h3]
    simp only [hc, if_false, Bool.false_eq_true]
    have : (c.version == expected) = false := beq_eq_false_iff_ne.mpr hv
    simp [this]

/-- Witness for C3: round-trip on an empty store, and a stale `"0.9.0"` record
reported as a miss while still present. -/
theorem modelCache_roundtrip_witness :
    getModelFromCache ⟨false, false, false⟩ MODEL_VERSION
      (storePut [] ⟨MODEL_KEY, MODEL_VERSION, [1, 2, 3], 7⟩) = some [1, 2, 3] ∧
    isModelCached ⟨false, false, false⟩ MODEL_VERSION
      [⟨MODEL_KEY, "0.9.0", [1, 2, 3], 7⟩] = false ∧
    (getCacheInfo ⟨false, false, false⟩ MODEL_VERSION
      [⟨MODEL_KEY, "0.9.0", [1, 2, 3], 7⟩]).version = some "0.9.0" := by
  have h := modelCache_roundtrip_and_version_mismatch ⟨false, false, false⟩ []
    [1, 2, 3] 7 MODEL_VERSION rfl rfl rfl
  have h' := modelCache_roundtrip_and_version_mismatch ⟨false, false, false⟩
    [⟨MODEL_KEY, "0.9.0", [1, 2, 3], 7⟩] [1, 2, 3] 7 MODEL_VERSION rfl rfl rfl
  have hm := h'.2.2 ⟨MODEL_KEY, "0.9.0", [1, 2, 3], 7⟩ (by decide) (by decide)
  exact ⟨h.2.1, hm.2.1, hm.2.2.2⟩

/-- C4 counterexample: with IndexedDB unavailable in the host environment,
`saveModelToCache` and `clearModelCache` reject with a wrapped error instead
of resolving — contradicting the claim that every cache operation, put and
clear in particular, resolves rather than raises in that situation. -/
theorem modelCache_unavailable_counterexample :
    saveModelToCache ⟨true, false, false⟩ MODEL_VERSION [1, 2, 3] 0 [] =
      .error "Failed to save model to cache: Error: IndexedDB is not available" ∧
    clearModelCache ⟨true, false, false⟩ [] =
      .error "Failed to clear model cache: Error: IndexedDB is not available" := by
  constructor <;> rfl

/-- C4 amended: when the persistent store is unavailable, the read operations
(`isModelCached`, `getModelFromCache`, `getCacheInfo`) resolve to their
miss/false/empty outcomes, while the write operations (`saveModelToCache`,
`clearModelCache`) reject with an error. -/
theorem modelCache_unavailable_behavior :
    ∀ (env : IdbEnv) (db : CacheStore) (expected : String) (data : List Nat)
      (now : Nat),
      env.idbUndefined = true ∨ env.openFails = true →
      isModelCached env expected db = false ∧
      getModelFromCache env expected db = none ∧
      getCacheInfo env expected db = emptyCacheInfo ∧
      (∃ e, saveModelToCache env expected data now db = .error e) ∧
      (∃ e, clearModelCache env db = .error e) := by
  intro env db expected data now h
  have henv : ∃ e, openDatabase env = .error e := by
    unfold openDatabase
    rcases h with h | h
    · rw [h]; exact ⟨_, rfl⟩
    · rw [h]
      by_cases h' : env.idbUndefined = true
      · rw [if_pos h']; exact ⟨_, rfl⟩
      · simp only [h', if_false]; exact ⟨_, rfl⟩
  rcases henv with ⟨e, he⟩
  unfold isModelCached getModelFromCache getCacheInfo saveModelToCache clearModelCache
  rw [he]
  exact ⟨rfl, rfl, rfl, ⟨_, rfl⟩, ⟨_, rfl⟩⟩

/-- Witness for C4's amended theorem at a concrete unavailable environment. -/
theorem modelCache_unavailable_behavior_witness :
    isModelCached ⟨false, true, false⟩ MODEL_VERSION
      [⟨MODEL_KEY, MODEL_VERSION, [5], 0⟩] = false ∧
    getModelFromCache ⟨false, true, false⟩ MODEL_VERSION
      [⟨MODEL_KEY, MODEL_VERSION, [5], 0⟩] = none := by
  have h := modelCache_unavailable_behavior ⟨false, true, false⟩
    [⟨MODEL_KEY, MODEL_VERSION, [5], 0⟩] MODEL_VERSION [] 0 (Or.inr rfl)
  exact ⟨h.1, h.2.1⟩

/-! ### C1: mask thresholding and threshold monotonicity -/

/-- A lower threshold parameter gives a threshold value at least as large. -/
theorem thresholdValue_antitone {t t' : ℚ} (h : t' ≤ t) :
    thresholdValue t ≤ thresholdValue t' := by
  unfold thresholdValue
  have : (1 - t) ≤ (1 - t') := by linarith
  nlinarith

/-- A pixel transparent at threshold `t` stays transparent at any `t' ≤ t`. -/
theorem maskAlpha_zero_mono {t t' : ℚ} (h : t' ≤ t) {m : Nat}
    (hz : maskAlpha t m = 0) : maskAlpha t' m = 0 := by
  unfold maskAlpha at hz ⊢
  split at hz
  · simp at hz
  · next hlt =>
    rw [if_neg]
    intro hle
    exact hlt (le_trans (thresholdValue_antitone h) hle)

/-- C1: each output pixel's alpha is 255 exactly when its normalized
(sigmoid-scaled, resampled, `uint8`) mask score is `≥ (1 - t) * 255`, and 0
otherwise; the R, G, B entries are copied unchanged; and for a fixed mask,
decreasing `t` never decreases the number (hence, the total pixel count being
fixed, the fraction) of transparent output pixels. -/
theorem removeBackground_threshold_spec :
    (∀ (pixelData maskData : List Nat) (t : ℚ) (j : Nat),
      j % 4 = 3 → j < pixelData.length →
      (compositeLoop pixelData maskData t).getD j 0 =
        if thresholdValue t ≤ (maskData.getD (j - 3) 0 : ℚ) then 255 else 0) ∧
    (∀ (pixelData maskData : List Nat) (t : ℚ) (j : Nat),
      j % 4 ≠ 3 →
      (compositeLoop pixelData maskData t).getD j 0 = pixelData.getD j 0) ∧
    (∀ (mask : List Nat) (t t' : ℚ), t' ≤ t →
      countTransparent (alphaChannel t mask) ≤
        countTransparent (alphaChannel t' mask)) := by
  refine ⟨?_, ?_, ?_⟩
  · intro pd md t j hj hlt
    have hlen : j < (compositeLoop pd md t).length := by
      unfold compositeLoop
      rw [List.length_mapIdx]
      exact hlt
    rw [List.getD_eq_get _ 0 hlen]
    unfold compositeLoop
    rw [List.get_mapIdx _ _ _ hlt]
    rw [if_pos hj]
    unfold maskAlpha
    rfl
  · intro pd md t j hj
    by_cases hlt : j < pd.length
    · have hlen : j < (compositeLoop pd md t).length := by
        unfold compositeLoop
        rw [List.length_mapIdx]
        exact hlt
      rw [List.getD_eq_get _ 0 hlen, List.getD_eq_get _ 0 hlt]
      unfold compositeLoop
      rw [List.get_mapIdx _ _ _ hlt]
      rw [if_neg hj]
    · have h1 : (compositeLoop pd md t).length ≤ j := by
        unfold compositeLoop
        rw [List.length_mapIdx]
        omega
      rw [List.getD_eq_default _ _ h1, List.getD_eq_default _ _ (by omega)]
  · intro mask t t' h
    induction mask with
    | nil => exact le_refl _
    | cons m rest ih =>
      unfold countTransparent alphaChannel at ih ⊢
      rw [List.map_cons, List.map_cons, List.count_cons, List.count_cons]
      by_cases hz : maskAlpha t m = 0
      · have hz' := maskAlpha_zero_mono h hz
        simp only [hz, hz', beq_self_eq_true, if_true]
        omega
      · have : (maskAlpha t m == 0) = false := beq_eq_false_iff_ne.mpr hz
        rw [this]
        simp only [Bool.false_eq_true, if_false]
        split <;> omega

/-- Witness for C1 at concrete data: one RGBA pixel with mask score 200 at
threshold 1/2 is opaque, and [200, 100] has no more transparent pixels at
threshold 1/2 than at 1/4. -/
theorem removeBackground_threshold_spec_witness :
    (compositeLoop [10, 20, 30, 0] [200, 9, 9, 9] (1/2)).getD 3 0 = 255 ∧
    countTransparent (alphaChannel (1/2) [200, 100]) ≤
      countTransparent (alphaChannel (1/4) [200, 100]) := by
  constructor
  · rw [removeBackground_threshold_spec.1 [10, 20, 30, 0] [200, 9, 9, 9] (1/2) 3
      (by decide) (by decide)]
    rw [if_pos (by norm_num [thresholdValue])]
  · exact removeBackground_threshold_spec.2.2 [200, 100] (1/2) (1/4) (by norm_num)

/-! ### C2/C10: orchestrator cancellation and frame effects -/

/-- Progress callbacks never touch the `error` field. -/
theorem orchRun_progress_preserves_error :
    ∀ (ps : List ℚ) (o : Orch),
      (orchRun o (ps.map OEvent.progressUpdate)).st.error = o.st.error := by
  intro ps
  induction ps with
  | nil => intro o; rfl
  | cons p rest ih =>
    intro o
    have hstep : (orchStep o (.progressUpdate p)).st.error = o.st.error := rfl
    calc (orchRun o ((p :: rest).map OEvent.progressUpdate)).st.error
        = (orchRun (orchStep o (.progressUpdate p)) (rest.map OEvent.progressUpdate)).st.error := rfl
      _ = (orchStep o (.progressUpdate p)).st.error := ih _
      _ = o.st.error := hstep

/-- The complete effect of `cancel` on the hook state: only `status` and
`progress` change. -/
theorem orchStep_cancel_st (o : Orch) :
    (orchStep o .cancelEvt).st = { o.st with status := .idle, progress := 0 } := by
  cases hctrl : o.ctrl <;> simp [orchStep, abortCurrent, hctrl]

theorem orchStep_cancel_status (o : Orch) :
    (orchStep o .cancelEvt).st.status = .idle := by
  rw [orchStep_cancel_st]

theorem orchStep_cancel_error (o : Orch) :
    (orchStep o .cancelEvt).st.error = o.st.error := by
  rw [orchStep_cancel_st]

/-- C2: `cancel` always transitions the status to `idle` and writes nothing to
the `error` field; after a `processImage` run (which clears `error`) and any
number of progress callbacks, cancelling yields `idle` with `error = none`; a
completion arriving for an aborted controller changes nothing at all (so a
cancelled run is never observed as `complete` or `error`); and a rejection for
a non-aborted controller yields `error` with the failure message. -/
theorem cancellation_routes_to_idle :
    (∀ o : Orch,
      (orchStep o .cancelEvt).st.status = .idle ∧
      (orchStep o .cancelEvt).st.error = o.st.error) ∧
    (∀ (o : Orch) (f : Nat) (ps : List ℚ),
      (orchStep (orchRun (orchStep o (.processImageStart f))
          (ps.map OEvent.progressUpdate)) .cancelEvt).st.status = .idle ∧
      (orchStep (orchRun (orchStep o (.processImageStart f))
          (ps.map OEvent.progressUpdate)) .cancelEvt).st.error = none) ∧
    (∀ (o : Orch) (c : Nat) (msg : String) (blob w hgt timeMs : Nat),
      o.abortedCtrls.contains c = true →
      orchStep o (.resolveErr c msg) = o ∧
      orchStep o (.resolveOk c blob w hgt timeMs) = o ∧
      orchStep o (.reprocessErr c msg) = o ∧
      orchStep o (.reprocessOk c blob w hgt timeMs) = o) ∧
    (∀ (o : Orch) (c : Nat) (msg : String),
      o.abortedCtrls.contains c = false →
      (orchStep o (.resolveErr c msg)).st.status = .error ∧
      (orchStep o (.resolveErr c msg)).st.error = some msg ∧
      (orchStep o (.reprocessErr c msg)).st.status = .error ∧
      (orchStep o (.reprocessErr c msg)).st.error = some msg) := by
  refine ⟨fun o => ?_, fun o f ps => ?_, fun o c msg blob w hgt timeMs hc => ?_,
    fun o c msg hc => ?_⟩
  · exact ⟨orchStep_cancel_status o, orchStep_cancel_error o⟩
  · refine ⟨orchStep_cancel_status _, ?_⟩
    rw [orchStep_cancel_error, orchRun_progress_preserves_error]
    rfl
  · have hm : c ∈ o.abortedCtrls := by simpa using hc
    exact ⟨by simp [orchStep, hm], by simp [orchStep, hm], by simp [orchStep, hm],
      by simp [orchStep, hm]⟩
  · have hm : c ∉ o.abortedCtrls := by simpa using hc
    refine ⟨?_, ?_, ?_, ?_⟩ <;> simp [orchStep, hm]

/-- Witness for C2: an aborted controller's rejection is a no-op, and a live
controller's rejection populates `error`. -/
theorem cancellation_routes_to_idle_witness :
    orchStep ⟨initialPState, none, [3], none, none, none, 4, 0, []⟩
        (.resolveErr 3 "boom") =
      ⟨initialPState, none, [3], none, none, none, 4, 0, []⟩ ∧
    (orchStep ⟨initialPState, none, [], none, none, none, 0, 0, []⟩
        (.resolveErr 0 "boom")).st.status = .error :=
  ⟨(cancellation_routes_to_idle.2.2.1 ⟨initialPState, none, [3], none, none, none,
      4, 0, []⟩ 3 "boom" 0 0 0 0 rfl).1,
    (cancellation_routes_to_idle.2.2.2 ⟨initialPState, none, [], none, none, none,
      0, 0, []⟩ 0 "boom" rfl).1⟩

/-- C10 counterexample: the claim's closing clause — owned object URLs are
revoked only by an explicit `reset` or by the start of the next `processImage`
call — is violated by `reprocessWithThreshold`, whose synchronous prefix
revokes the processed image's URL.  Concretely, from a state holding processed
URL 5 and a current file, `reprocessStart` extends the revocation log. -/
theorem cancel_frame_counterexample :
    (orchStep ⟨initialPState, none, [], none, some 5, some 1, 0, 0, []⟩
        (.reprocessStart (1/2))).revoked = [5] ∧
    ¬(∀ (o : Orch) (e : OEvent),
        (orchStep o e).revoked ≠ o.revoked →
        e = OEvent.resetEvt ∨ ∃ f, e = OEvent.processImageStart f) := by
  constructor
  · rfl
  · intro h
    have h5 : (orchStep ⟨initialPState, none, [], none, some 5, some 1, 0, 0, []⟩
        (.reprocessStart (1/2))).revoked = [5] := rfl
    have := h ⟨initialPState, none, [], none, some 5, some 1, 0, 0, []⟩
      (.reprocessStart (1/2)) (by rw [h5]; simp)
    rcases this with h1 | ⟨f, h2⟩
    · exact OEvent.noConfusion h1
    · exact OEvent.noConfusion h2

/-- C10 amended: `cancel` from any state changes only the `status` (to `idle`)
and `progress` (to `0`) fields of the hook state — the retained
`originalImage`/`processedImage` entries, the URL refs, the current file, and
the revocation log are untouched — and an owned object URL is revoked only by
`reset`, by the synchronous start of the next `processImage` call, or by the
synchronous start of `reprocessWithThreshold` (which revokes only the
processed image's URL). -/
theorem cancel_frame_effect :
    (∀ o : Orch,
      (orchStep o .cancelEvt).st = { o.st with status := .idle, progress := 0 } ∧
      (orchStep o .cancelEvt).revoked = o.revoked ∧
      (orchStep o .cancelEvt).originalUrlRef = o.originalUrlRef ∧
      (orchStep o .cancelEvt).processedUrlRef = o.processedUrlRef ∧
      (orchStep o .cancelEvt).currentFile = o.currentFile) ∧
    (∀ (o : Orch) (e : OEvent),
      (orchStep o e).revoked ≠ o.revoked →
      e = OEvent.resetEvt ∨ (∃ f, e = OEvent.processImageStart f) ∨
        ∃ th, e = OEvent.reprocessStart th) := by
  constructor
  · intro o
    refine ⟨orchStep_cancel_st o, ?_, ?_, ?_, ?_⟩ <;>
      cases hctrl : o.ctrl <;> simp [orchStep, abortCurrent, hctrl]
  · intro o e h
    cases e with
    | processImageStart f => exact Or.inr (Or.inl ⟨f, rfl⟩)
    | resetEvt => exact Or.inl rfl
    | reprocessStart th => exact Or.inr (Or.inr ⟨th, rfl⟩)
    | progressUpdate p => exact absurd rfl h
    | resolveOk c blob w hgt timeMs =>
      exfalso
      apply h
      by_cases hm : c ∈ o.abortedCtrls <;> simp [orchStep, hm]
    | resolveErr c msg =>
      exfalso
      apply h
      by_cases hm : c ∈ o.abortedCtrls <;> simp [orchStep, hm]
    | cancelEvt =>
      exfalso
      apply h
      cases hctrl : o.ctrl <;> simp [orchStep, abortCurrent, hctrl]
    | reprocessProgress p =>
      exfalso
      apply h
      by_cases hp : (7/10 : ℚ) ≤ p <;> simp [orchStep, hp]
    | reprocessOk c blob w hgt timeMs =>
      exfalso
      apply h
      by_cases hm : c ∈ o.abortedCtrls <;> simp [orchStep, hm]
    | reprocessErr c msg =>
      exfalso
      apply h
      by_cases hm : c ∈ o.abortedCtrls <;> simp [orchStep, hm]
    | preloadStart => exact absurd rfl h
    | preloadProgress p => exact absurd rfl h
    | preloadDone => exact absurd rfl h
    | preloadFail msg => exact absurd rfl h

/-- Witness for C10's amended theorem: the revocation performed from a state
holding processed URL 5 is attributed to `reprocessWithThreshold`. -/
theorem cancel_frame_effect_witness :
    OEvent.reprocessStart (1/2) = OEvent.resetEvt ∨
    (∃ f, OEvent.reprocessStart (1/2) = OEvent.processImageStart f) ∨
    (∃ th, OEvent.reprocessStart (1/2) = OEvent.reprocessStart th) :=
  cancel_frame_effect.2 ⟨initialPState, none, [], none, some 5, some 1, 0, 0, []⟩
    (.reprocessStart (1/2))
    (by
      rw [show (orchStep ⟨initialPState, none, [], none, some 5, some 1, 0, 0, []⟩
        (.reprocessStart (1/2))).revoked = [5] from rfl]
      simp)

/-! ### C8: dimension policy -/

/-- The large-file warning is never the dimension warning (their first
characters already differ). -/
theorem largeFileWarning_ne_tooLargeWarning (fs : Nat) :
    largeFileWarning fs ≠ tooLargeWarning := by
  intro h
  have hh : (largeFileWarning fs).data.head? = some 'L' := by
    unfold largeFileWarning
    simp only [String.data_append, List.head?_append]
    rfl
  rw [h] at hh
  exact absurd hh (by decide)

/-- The size-warning list contains no dimension warning. -/
theorem sizeWarnings_count_tooLarge (fs : Nat) :
    (if fs > LARGE_FILE_THRESHOLD then [largeFileWarning fs]
      else ([] : List String)).count tooLargeWarning = 0 := by
  by_cases hT : fs > LARGE_FILE_THRESHOLD
  · rw [if_pos hT]
    simp [List.count_cons, beq_eq_false_iff_ne.mpr (largeFileWarning_ne_tooLargeWarning fs)]
  · rw [if_neg hT]
    rfl

/-- C8: for a decoded image of a recognized format, widths and heights in
`[10, 8192]` validate with no dimension warning; a value `< 10` on either axis
fails with the "too small" error and adds no warning; a value `> 8192` on
either axis passes with exactly one dimension warning, even when both axes
exceed it. -/
theorem validateImage_dimension_policy :
    ∀ (file : List Nat) (fileSize w hgt : Nat),
      (detectImageFormat file).isSome = true →
      ((10 ≤ w ∧ w ≤ 8192 ∧ 10 ≤ hgt ∧ hgt ≤ 8192) →
        (validateImage file fileSize (.ok ⟨w, hgt⟩)).valid = true ∧
        (validateImage file fileSize (.ok ⟨w, hgt⟩)).warnings.count
          tooLargeWarning = 0) ∧
      ((w < 10 ∨ hgt < 10) →
        (validateImage file fileSize (.ok ⟨w, hgt⟩)).valid = false ∧
        (validateImage file fileSize (.ok ⟨w, hgt⟩)).error = some tooSmallError ∧
        (validateImage file fileSize (.ok ⟨w, hgt⟩)).warnings.count
          tooLargeWarning = 0) ∧
      ((10 ≤ w ∧ 10 ≤ hgt ∧ (8192 < w ∨ 8192 < hgt)) →
        (validateImage file fileSize (.ok ⟨w, hgt⟩)).valid = true ∧
        (validateImage file fileSize (.ok ⟨w, hgt⟩)).warnings.count
          tooLargeWarning = 1) := by
  intro file fileSize w hgt hfmt
  obtain ⟨f, hf⟩ := Option.isSome_iff_exists.mp hfmt
  have htype : validateImageType file = ⟨true, some f, none⟩ := by
    unfold validateImageType
    rw [hf]
  refine ⟨fun ⟨h1, h2, h3, h4⟩ => ?_, fun h => ?_, fun ⟨h1, h2, h3⟩ => ?_⟩
  · have hdim : validateDimensions ⟨w, hgt⟩ = ⟨true, none, []⟩ := by
      unfold validateDimensions
      split_ifs with hA hB
      · exfalso
        simp only [MIN_DIMENSION, Bool.or_eq_true, decide_eq_true_eq] at hA
        omega
      · exfalso
        simp only [MAX_DIMENSION, Bool.or_eq_true, decide_eq_true_eq] at hB
        omega
      · rfl
    refine ⟨?_, ?_⟩
    · simp [validateImage, htype, hdim]
    · simp [validateImage, htype, hdim, sizeWarnings_count_tooLarge fileSize]
  · have hdim : validateDimensions ⟨w, hgt⟩ = ⟨false, some tooSmallError, []⟩ := by
      unfold validateDimensions
      split_ifs with hA hB
      · rfl
      all_goals
        exfalso
        simp only [MIN_DIMENSION, Bool.or_eq_true, decide_eq_true_eq, not_or] at hA
        rcases h with h | h <;> omega
    refine ⟨?_, ?_, ?_⟩
    · simp [validateImage, htype, hdim]
    · simp [validateImage, htype, hdim]
    · simp [validateImage, htype, hdim, sizeWarnings_count_tooLarge fileSize]
  · have hdim : validateDimensions ⟨w, hgt⟩ = ⟨true, none, [tooLargeWarning]⟩ := by
      unfold validateDimensions
      split_ifs with hA hB
      · exfalso
        simp only [MIN_DIMENSION, Bool.or_eq_true, decide_eq_true_eq] at hA
        omega
      · rfl
      · exfalso
        simp only [MAX_DIMENSION, Bool.or_eq_true, decide_eq_true_eq] at hB
        omega
    refine ⟨?_, ?_⟩
    · simp [validateImage, htype, hdim]
    · simp [validateImage, htype, hdim, List.count_append,
        sizeWarnings_count_tooLarge fileSize, List.count_cons]

/-- Witness for C8 at a concrete PNG header: 500×500 passes cleanly, 5×500 is
rejected as too small, 9000×500 passes with exactly one dimension warning. -/
theorem validateImage_dimension_policy_witness :
    (validateImage [0x89, 0x50, 0x4e, 0x47, 0x0d, 0x0a, 0x1a, 0x0a] 1000
      (.ok ⟨500, 500⟩)).valid = true ∧
    (validateImage [0x89, 0x50, 0x4e, 0x47, 0x0d, 0x0a, 0x1a, 0x0a] 1000
      (.ok ⟨5, 500⟩)).error = some tooSmallError ∧
    (validateImage [0x89, 0x50, 0x4e, 0x47, 0x0d, 0x0a, 0x1a, 0x0a] 1000
      (.ok ⟨9000, 500⟩)).warnings.count tooLargeWarning = 1 :=
  ⟨((validateImage_dimension_policy _ 1000 500 500 (by decide)).1
      (by omega)).1,
    ((validateImage_dimension_policy _ 1000 5 500 (by decide)).2.1
      (by omega)).2.1,
    ((validateImage_dimension_policy _ 1000 9000 500 (by decide)).2.2
      (by omega)).2⟩

/-! ### C7: magic-byte detection -/

set_option maxRecDepth 40000 in
/-- Masking a byte value with `0xff` is the identity. -/
theorem land255_of_lt : ∀ b < 256, b &&& 255 = b := by decide

/-- Entries of a byte list are bytes. -/
theorem getD_lt_of_mem (l : List Nat) (hl : ∀ b ∈ l, b < 256) {i : Nat}
    (hi : i < l.length) : l.getD i 0 < 256 := by
  rw [List.getD_eq_getElem _ _ hi]
  exact hl _ (List.getElem_mem hi)

/-- A list equals the `take` of its length out of `file` iff `file` is long
enough and agrees with it entrywise. -/
theorem take_eq_iff_getD :
    ∀ (sig file : List Nat),
      file.take sig.length = sig ↔
        (sig.length ≤ file.length ∧ ∀ i < sig.length, file.getD i 0 = sig.getD i 0) := by
  intro sig
  induction sig with
  | nil => intro file; simp
  | cons s ss ih =>
    intro file
    cases file with
    | nil =>
      simp only [List.take_nil, List.length_cons, List.length_nil]
      constructor
      · intro h
        exact absurd h (by simp)
      · rintro ⟨h, -⟩
        omega
    | cons f fs =>
      rw [List.length_cons, List.take_succ_cons]
      constructor
      · intro hE
        injection hE with h1 h2
        obtain ⟨hlen, hall⟩ := (ih fs).mp h2
        refine ⟨by simp; omega, fun i hi => ?_⟩
        cases i with
        | zero => simpa using h1
        | succ n =>
          have := hall n (by omega)
          simpa using this
      · rintro ⟨hlen, hall⟩
        have h0 := hall 0 (by omega)
        simp only [List.getD_cons_zero] at h0
        rw [h0]
        have : fs.take ss.length = ss := by
          refine (ih fs).mpr ⟨by simp at hlen; omega, fun i hi => ?_⟩
          have := hall (i + 1) (by omega)
          simpa using this
        rw [this]

/-- `all` over a range only depends on the function below the bound. -/
theorem all_range_congr {n : Nat} {p q : Nat → Bool}
    (h : ∀ i < n, p i = q i) : (List.range n).all p = (List.range n).all q := by
  apply Bool.eq_iff_iff.mpr
  rw [List.all_eq_true, List.all_eq_true]
  constructor <;> intro ha i hi
  · rw [← h i (List.mem_range.mp hi)]
    exact ha i hi
  · rw [h i (List.mem_range.mp hi)]
    exact ha i hi

/-- `getD` at an index kept by `take`. -/
theorem getD_take_lt (l : List Nat) {i n : Nat} (h : i < n) :
    (l.take n).getD i 0 = l.getD i 0 := by
  rw [List.getD_eq_getD_get?, List.getD_eq_getD_get?, List.get?_eq_getElem?,
    List.get?_eq_getElem?, List.getElem?_take, if_pos h]

/-- `getD` through `drop`. -/
theorem getD_drop_add (l : List Nat) (n i : Nat) :
    (l.drop n).getD i 0 = l.getD (n + i) 0 := by
  rw [List.getD_eq_getD_get?, List.getD_eq_getD_get?, List.get?_eq_getElem?,
    List.get?_eq_getElem?, List.getElem?_drop]

/-- The 12-byte read window is irrelevant for signatures of length ≤ 12. -/
theorem matchesSignature_take12 (file sig : List Nat) (mask : Option (List Nat))
    (h12 : sig.length ≤ 12) :
    matchesSignature (file.take 12) sig mask = matchesSignature file sig mask := by
  unfold matchesSignature
  have hlen : (file.take 12).length = min 12 file.length := List.length_take 12 file
  by_cases hc : file.length < sig.length
  · rw [if_pos (by omega), if_pos hc]
  · rw [if_neg (by omega), if_neg hc]
    apply all_range_congr
    intro i hi
    rw [getD_take_lt file (by omega)]

/-- For a maskless signature of byte values, `matchesSignature` is exactly the
prefix test. -/
theorem matchesSignature_none_iff (file sig : List Nat)
    (hf : ∀ b ∈ file, b < 256) (hs : ∀ b ∈ sig, b < 256) :
    matchesSignature file sig none = true ↔ file.take sig.length = sig := by
  rw [take_eq_iff_getD]
  unfold matchesSignature
  split
  case isTrue hlt =>
    simp only [Bool.false_eq_true, false_iff, not_and]
    intro hlen
    omega
  case isFalse hge =>
    rw [List.all_eq_true]
    constructor
    · intro hall
      refine ⟨by omega, fun i hi => ?_⟩
      have h := hall i (List.mem_range.mpr hi)
      have h' : file.getD i 0 &&& 255 = sig.getD i 0 &&& 255 := by
        simpa [maskByteAt] using h
      rw [land255_of_lt _ (getD_lt_of_mem file hf (by omega)),
        land255_of_lt _ (getD_lt_of_mem sig hs hi)] at h'
      exact h'
    · rintro ⟨hlen, hall⟩ i hir
      have hi := List.mem_range.mp hir
      have := hall i hi
      simp only [maskByteAt]
      rw [this]
      simp

/-- The claim's reading of the WebP signature: `RIFF`, four arbitrary bytes,
`WEBP`. -/
def riffBytes : List Nat := [0x52, 0x49, 0x46, 0x46]

def webpTag : List Nat := [0x57, 0x45, 0x42, 0x50]

/-- The masked WebP compare is exactly: 12 bytes available, `RIFF` leading,
`WEBP` at offset 8, with the four file-size bytes free. -/
theorem matchesSignature_webp_iff (file : List Nat)
    (hf : ∀ b ∈ file, b < 256) :
    matchesSignature file webpSigBytes (some webpSigMask) = true ↔
      (12 ≤ file.length ∧ file.take 4 = riffBytes ∧
        (file.drop 8).take 4 = webpTag) := by
  unfold matchesSignature
  split
  case isTrue h =>
    simp only [Bool.false_eq_true, false_iff, not_and]
    intro h12
    exfalso
    simp [webpSigBytes] at h
    omega
  case isFalse h =>
    have h12 : 12 ≤ file.length := by
      simp [webpSigBytes] at h
      omega
    rw [List.all_eq_true]
    constructor
    · intro hall
      have e : ∀ i, i < 12 → maskByteAt (some webpSigMask) i = 255 →
          file.getD i 0 = webpSigBytes.getD i 0 := by
        intro i hi hm
        have hx := hall i (by simp [webpSigBytes]; omega)
        rw [hm] at hx
        have hb : file.getD i 0 < 256 := getD_lt_of_mem file hf (by omega)
        have hsv : webpSigBytes.getD i 0 < 256 :=
          getD_lt_of_mem webpSigBytes (by decide) (by simp [webpSigBytes]; omega)
        have hx' : file.getD i 0 &&& 255 = webpSigBytes.getD i 0 &&& 255 := by
          simpa [webpSigBytes] using hx
        rw [land255_of_lt _ hb, land255_of_lt _ hsv] at hx'
        exact hx'
      refine ⟨h12, ?_, ?_⟩
      · refine (take_eq_iff_getD riffBytes file).mpr ⟨by simp [riffBytes]; omega, ?_⟩
        intro i hi
        simp only [riffBytes, List.length_cons, List.length_nil] at hi
        interval_cases i
        · rw [e 0 (by omega) (by decide)]; decide
        · rw [e 1 (by omega) (by decide)]; decide
        · rw [e 2 (by omega) (by decide)]; decide
        · rw [e 3 (by omega) (by decide)]; decide
      · refine (take_eq_iff_getD webpTag (file.drop 8)).mpr
          ⟨by simp [webpTag, List.length_drop]; omega, ?_⟩
        intro i hi
        simp only [webpTag, List.length_cons, List.length_nil] at hi
        interval_cases i
        · rw [getD_drop_add]
          show file.getD 8 0 = webpTag.getD 0 0
          rw [e 8 (by omega) (by decide)]; decide
        · rw [getD_drop_add]
          show file.getD 9 0 = webpTag.getD 1 0
          rw [e 9 (by omega) (by decide)]; decide
        · rw [getD_drop_add]
          show file.getD 10 0 = webpTag.getD 2 0
          rw [e 10 (by omega) (by decide)]; decide
        · rw [getD_drop_add]
          show file.getD 11 0 = webpTag.getD 3 0
          rw [e 11 (by omega) (by decide)]; decide
    · rintro ⟨h12', hriff, htag⟩
      have hr := (take_eq_iff_getD riffBytes file).mp hriff
      have ht := (take_eq_iff_getD webpTag (file.drop 8)).mp htag
      intro i hir
      have hi : i < 12 := by
        simpa [webpSigBytes] using List.mem_range.mp hir
      have htg : ∀ k : Nat, k < 4 → file.getD (8 + k) 0 = webpTag.getD k 0 := by
        intro k hk
        rw [← getD_drop_add]
        exact ht.2 k hk
      interval_cases i
      · show (file.getD 0 0 &&& 255 == 0x52 &&& 255) = true
        rw [hr.2 0 (by decide)]; decide
      · show (file.getD 1 0 &&& 255 == 0x49 &&& 255) = true
        rw [hr.2 1 (by decide)]; decide
      · show (file.getD 2 0 &&& 255 == 0x46 &&& 255) = true
        rw [hr.2 2 (by decide)]; decide
      · show (file.getD 3 0 &&& 255 == 0x46 &&& 255) = true
        rw [hr.2 3 (by decide)]; decide
      · show (file.getD 4 0 &&& 0 == 0x00 &&& 0) = true
        simp
      · show (file.getD 5 0 &&& 0 == 0x00 &&& 0) = true
        simp
      · show (file.getD 6 0 &&& 0 == 0x00 &&& 0) = true
        simp
      · show (file.getD 7 0 &&& 0 == 0x00 &&& 0) = true
        simp
      · show (file.getD (8 + 0) 0 &&& 255 == 0x57 &&& 255) = true
        rw [htg 0 (by decide)]; decide
      · show (file.getD (8 + 1) 0 &&& 255 == 0x45 &&& 255) = true
        rw [htg 1 (by decide)]; decide
      · show (file.getD (8 + 2) 0 &&& 255 == 0x42 &&& 255) = true
        rw [htg 2 (by decide)]; decide
      · show (file.getD (8 + 3) 0 &&& 255 == 0x50 &&& 255) = true
        rw [htg 3 (by decide)]; decide

/-- `detectImageFormat` as the nested first-match conditional over the four
signature families, in table order. -/
theorem detectImageFormat_eq (file : List Nat) :
    detectImageFormat file =
      if matchesSignature (file.take 12) pngSig none then some SupportedImageFormat.png
      else if matchesSignature (file.take 12) (jpegSig 0xe0) none ||
          matchesSignature (file.take 12) (jpegSig 0xe1) none ||
          matchesSignature (file.take 12) (jpegSig 0xe2) none ||
          matchesSignature (file.take 12) (jpegSig 0xe8) none ||
          matchesSignature (file.take 12) (jpegSig 0xdb) none then some .jpeg
      else if matchesSignature (file.take 12) webpSigBytes (some webpSigMask) then
        some .webp
      else if matchesSignature (file.take 12) gif87Sig none ||
          matchesSignature (file.take 12) gif89Sig none then some .gif
      else none := by
  unfold detectImageFormat
  simp only [MAGIC_BYTES, List.find?_cons, List.any_cons, List.any_nil, Bool.or_false]
  cases matchesSignature (file.take 12) pngSig none <;>
    cases matchesSignature (file.take 12) (jpegSig 0xe0) none <;>
    cases matchesSignature (file.take 12) (jpegSig 0xe1) none <;>
    cases matchesSignature (file.take 12) (jpegSig 0xe2) none <;>
    cases matchesSignature (file.take 12) (jpegSig 0xe8) none <;>
    cases matchesSignature (file.take 12) (jpegSig 0xdb) none <;>
    cases matchesSignature (file.take 12) webpSigBytes (some webpSigMask) <;>
    cases matchesSignature (file.take 12) gif87Sig none <;>
    cases matchesSignature (file.take 12) gif89Sig none <;>
    rfl

/-- Modelled from the spec: the claim's PNG condition — leading bytes
`89 50 4E 47 0D 0A 1A 0A`. -/
def PngMatch (file : List Nat) : Prop := file.take 8 = pngSig

/-- Modelled from the spec: the claim's JPEG condition — `FF D8 FF` followed
by one of `E0 E1 E2 E8 DB`. -/
def JpegMatch (file : List Nat) : Prop :=
  ∃ m ∈ [0xe0, 0xe1, 0xe2, 0xe8, 0xdb], file.take 4 = jpegSig m

/-- Modelled from the spec: the claim's WebP condition — `52 49 46 46`, four
arbitrary bytes, `57 45 42 50`. -/
def WebpMatch (file : List Nat) : Prop :=
  12 ≤ file.length ∧ file.take 4 = riffBytes ∧ (file.drop 8).take 4 = webpTag

/-- Modelled from the spec: the claim's GIF condition — `47 49 46 38` followed
by `37 61` or `39 61`. -/
def GifMatch (file : List Nat) : Prop :=
  file.take 6 = gif87Sig ∨ file.take 6 = gif89Sig

/-- C7: for every byte sequence, detection reports png/jpeg/webp/gif exactly
when the leading bytes match the corresponding fixed signature family; when no
family matches, no format is reported and `validateImageType` yields
`valid = false` with the fixed unsupported-format error; when a family
matches, `validateImageType` reports that format as valid. -/
theorem magicBytes_detection_spec :
    ∀ file : List Nat, (∀ b ∈ file, b < 256) →
      (detectImageFormat file = some .png ↔ PngMatch file) ∧
      (detectImageFormat file = some .jpeg ↔ JpegMatch file) ∧
      (detectImageFormat file = some .webp ↔ WebpMatch file) ∧
      (detectImageFormat file = some .gif ↔ GifMatch file) ∧
      (detectImageFormat file = none ↔
        ¬(PngMatch file ∨ JpegMatch file ∨ WebpMatch file ∨ GifMatch file)) ∧
      (∀ f, detectImageFormat file = some f →
        validateImageType file = ⟨true, some f, none⟩) ∧
      (detectImageFormat file = none →
        validateImageType file = ⟨false, none, some unsupportedFormatError⟩) := by
  intro file hfb
  have hplain : ∀ sig : List Nat, (∀ b ∈ sig, b < 256) → sig.length ≤ 12 →
      (matchesSignature (file.take 12) sig none = true ↔
        file.take sig.length = sig) := by
    intro sig hs h12
    rw [matchesSignature_take12 _ _ _ h12]
    exact matchesSignature_none_iff file sig hfb hs
  have hpngI : matchesSignature (file.take 12) pngSig none = true ↔ PngMatch file := by
    have := hplain pngSig (by decide) (by decide)
    simpa [PngMatch, pngSig] using this
  have hjpI : (matchesSignature (file.take 12) (jpegSig 0xe0) none ||
      matchesSignature (file.take 12) (jpegSig 0xe1) none ||
      matchesSignature (file.take 12) (jpegSig 0xe2) none ||
      matchesSignature (file.take 12) (jpegSig 0xe8) none ||
      matchesSignature (file.take 12) (jpegSig 0xdb) none) = true ↔
      JpegMatch file := by
    have e0 := hplain (jpegSig 0xe0) (by decide) (by decide)
    have e1 := hplain (jpegSig 0xe1) (by decide) (by decide)
    have e2 := hplain (jpegSig 0xe2) (by decide) (by decide)
    have e8 := hplain (jpegSig 0xe8) (by decide) (by decide)
    have edb := hplain (jpegSig 0xdb) (by decide) (by decide)
    simp only [Bool.or_eq_true, e0, e1, e2, e8, edb]
    constructor
    · intro h
      rcases h with ((((h | h) | h) | h) | h)
      · exact ⟨0xe0, by decide, h⟩
      · exact ⟨0xe1, by decide, h⟩
      · exact ⟨0xe2, by decide, h⟩
      · exact ⟨0xe8, by decide, h⟩
      · exact ⟨0xdb, by decide, h⟩
    · rintro ⟨m, hm, h⟩
      simp only [List.mem_cons, List.not_mem_nil, or_false] at hm
      rcases hm with rfl | rfl | rfl | rfl | rfl
      · exact Or.inl (Or.inl (Or.inl (Or.inl h)))
      · exact Or.inl (Or.inl (Or.inl (Or.inr h)))
      · exact Or.inl (Or.inl (Or.inr h))
      · exact Or.inl (Or.inr h)
      · exact Or.inr h
  have hwebpI : matchesSignature (file.take 12) webpSigBytes (some webpSigMask) =
      true ↔ WebpMatch file := by
    rw [matchesSignature_take12 _ _ _ (by decide)]
    simpa [WebpMatch] using matchesSignature_webp_iff file hfb
  have hgifI : (matchesSignature (file.take 12) gif87Sig none ||
      matchesSignature (file.take 12) gif89Sig none) = true ↔ GifMatch file := by
    have g7 := hplain gif87Sig (by decide) (by decide)
    have g9 := hplain gif89Sig (by decide) (by decide)
    simp only [Bool.or_eq_true, g7, g9]
    exact Iff.rfl
  have hpng0 : PngMatch file → file.getD 0 0 = 0x89 := by
    intro h
    have := ((take_eq_iff_getD pngSig file).mp h).2 0 (by decide)
    simpa [pngSig] using this
  have hjpeg0 : JpegMatch file → file.getD 0 0 = 0xff := by
    rintro ⟨m, -, h⟩
    have := ((take_eq_iff_getD (jpegSig m) file).mp h).2 0 (by simp [jpegSig])
    simpa [jpegSig] using this
  have hwebp0 : WebpMatch file → file.getD 0 0 = 0x52 := by
    rintro ⟨-, h, -⟩
    have := ((take_eq_iff_getD riffBytes file).mp h).2 0 (by decide)
    simpa [riffBytes] using this
  have hgif0 : GifMatch file → file.getD 0 0 = 0x47 := by
    rintro (h | h)
    · have := ((take_eq_iff_getD gif87Sig file).mp h).2 0 (by decide)
      simpa [gif87Sig] using this
    · have := ((take_eq_iff_getD gif89Sig file).mp h).2 0 (by decide)
      simpa [gif89Sig] using this
  have notOf : ∀ {b : Bool} {P : Prop}, (b = true ↔ P) → b = false → ¬P := by
    intro b P hiff hb hP
    rw [hiff.mpr hP] at hb
    exact Bool.noConfusion hb
  have hvalid : ∀ f, detectImageFormat file = some f →
      validateImageType file = ⟨true, some f, none⟩ := by
    intro f hdf
    unfold validateImageType
    rw [hdf]
  have hinvalid : detectImageFormat file = none →
      validateImageType file = ⟨false, none, some unsupportedFormatError⟩ := by
    intro hdf
    unfold validateImageType
    rw [hdf]
  cases h1 : matchesSignature (file.take 12) pngSig none with
  | true =>
    have hdet : detectImageFormat file = some .png := by
      rw [detectImageFormat_eq, if_pos h1]
    have hp : PngMatch file := hpngI.mp h1
    refine ⟨⟨fun _ => hp, fun _ => hdet⟩, ?_, ?_, ?_, ?_, hvalid, ?_⟩
    · exact ⟨fun h => absurd (hdet.symm.trans h) (by decide), fun hJ => by
        exfalso; have := hpng0 hp; have := hjpeg0 hJ; omega⟩
    · exact ⟨fun h => absurd (hdet.symm.trans h) (by decide), fun hW => by
        exfalso; have := hpng0 hp; have := hwebp0 hW; omega⟩
    · exact ⟨fun h => absurd (hdet.symm.trans h) (by decide), fun hG => by
        exfalso; have := hpng0 hp; have := hgif0 hG; omega⟩
    · exact ⟨fun h => absurd (hdet.symm.trans h) (by decide),
        fun hn => absurd (Or.inl hp) hn⟩
    · exact fun h => absurd (hdet.symm.trans h) (by decide)
  | false =>
    have hnp : ¬PngMatch file := notOf hpngI h1
    cases h2 : (matchesSignature (file.take 12) (jpegSig 0xe0) none ||
        matchesSignature (file.take 12) (jpegSig 0xe1) none ||
        matchesSignature (file.take 12) (jpegSig 0xe2) none ||
        matchesSignature (file.take 12) (jpegSig 0xe8) none ||
        matchesSignature (file.take 12) (jpegSig 0xdb) none) with
    | true =>
      have hdet : detectImageFormat file = some .jpeg := by
        rw [detectImageFormat_eq, if_neg (by rw [h1]; exact Bool.noConfusion),
          if_pos h2]
      have hj : JpegMatch file := hjpI.mp h2
      refine ⟨⟨fun h => absurd (hdet.symm.trans h) (by decide),
          fun hP => absurd hP hnp⟩,
        ⟨fun _ => hj, fun _ => hdet⟩, ?_, ?_, ?_, hvalid, ?_⟩
      · exact ⟨fun h => absurd (hdet.symm.trans h) (by decide), fun hW => by
          exfalso; have := hjpeg0 hj; have := hwebp0 hW; omega⟩
      · exact ⟨fun h => absurd (hdet.symm.trans h) (by decide), fun hG => by
          exfalso; have := hjpeg0 hj; have := hgif0 hG; omega⟩
      · exact ⟨fun h => absurd (hdet.symm.trans h) (by decide),
          fun hn => absurd (Or.inr (Or.inl hj)) hn⟩
      · exact fun h => absurd (hdet.symm.trans h) (by decide)
    | false =>
      have hnj : ¬JpegMatch file := notOf hjpI h2
      cases h3 : matchesSignature (file.take 12) webpSigBytes (some webpSigMask) with
      | true =>
        have hdet : detectImageFormat file = some .webp := by
          rw [detectImageFormat_eq, if_neg (by rw [h1]; exact Bool.noConfusion),
            if_neg (by rw [h2]; exact Bool.noConfusion), if_pos h3]
        have hw : WebpMatch file := hwebpI.mp h3
        refine ⟨⟨fun h => absurd (hdet.symm.trans h) (by decide),
            fun hP => absurd hP hnp⟩,
          ⟨fun h => absurd (hdet.symm.trans h) (by decide),
            fun hJ => absurd hJ hnj⟩,
          ⟨fun _ => hw, fun _ => hdet⟩, ?_, ?_, hvalid, ?_⟩
        · exact ⟨fun h => absurd (hdet.symm.trans h) (by decide), fun hG => by
            exfalso; have := hwebp0 hw; have := hgif0 hG; omega⟩
        · exact ⟨fun h => absurd (hdet.symm.trans h) (by decide),
            fun hn => absurd (Or.inr (Or.inr (Or.inl hw))) hn⟩
        · exact fun h => absurd (hdet.symm.trans h) (by decide)
      | false =>
        have hnw : ¬WebpMatch file := notOf hwebpI h3
        cases h4 : (matchesSignature (file.take 12) gif87Sig none ||
            matchesSignature (file.take 12) gif89Sig none) with
        | true =>
          have hdet : detectImageFormat file = some .gif := by
            rw [detectImageFormat_eq, if_neg (by rw [h1]; exact Bool.noConfusion),
              if_neg (by rw [h2]; exact Bool.noConfusion),
              if_neg (by rw [h3]; exact Bool.noConfusion), if_pos h4]
          have hg : GifMatch file := hgifI.mp h4
          exact ⟨⟨fun h => absurd (hdet.symm.trans h) (by decide),
              fun hP => absurd hP hnp⟩,
            ⟨fun h => absurd (hdet.symm.trans h) (by decide),
              fun hJ => absurd hJ hnj⟩,
            ⟨fun h => absurd (hdet.symm.trans h) (by decide),
              fun hW => absurd hW hnw⟩,
            ⟨fun _ => hg, fun _ => hdet⟩,
            ⟨fun h => absurd (hdet.symm.trans h) (by decide),
              fun hn => absurd (Or.inr (Or.inr (Or.inr hg))) hn⟩,
            hvalid, fun h => absurd (hdet.symm.trans h) (by decide)⟩
        | false =>
          have hng : ¬GifMatch file := notOf hgifI h4
          have hdet : detectImageFormat file = none := by
            rw [detectImageFormat_eq, if_neg (by rw [h1]; exact Bool.noConfusion),
              if_neg (by rw [h2]; exact Bool.noConfusion),
              if_neg (by rw [h3]; exact Bool.noConfusion),
              if_neg (by rw [h4]; exact Bool.noConfusion)]
          refine ⟨⟨fun h => absurd (hdet.symm.trans h) (by decide),
              fun hP => absurd hP hnp⟩,
            ⟨fun h => absurd (hdet.symm.trans h) (by decide),
              fun hJ => absurd hJ hnj⟩,
            ⟨fun h => absurd (hdet.symm.trans h) (by decide),
              fun hW => absurd hW hnw⟩,
            ⟨fun h => absurd (hdet.symm.trans h) (by decide),
              fun hG => absurd hG hng⟩,
            ⟨fun _ => ?_, fun _ => hdet⟩,
            hvalid, hinvalid⟩
          rintro (h | h | h | h)
          · exact hnp h
          · exact hnj h
          · exact hnw h
          · exact hng h

/-- Witness for C7: a PNG header detects as png, a WebP header as webp, and an
unrecognized 4-byte blob reports no format with the fixed error. -/
theorem magicBytes_detection_spec_witness :
    detectImageFormat [0x89, 0x50, 0x4e, 0x47, 0x0d, 0x0a, 0x1a, 0x0a] =
      some .png ∧
    detectImageFormat [0x52, 0x49, 0x46, 0x46, 0x99, 0x98, 0x97, 0x96, 0x57,
      0x45, 0x42, 0x50] = some .webp ∧
    validateImageType [0x00, 0x01, 0x02, 0x03] =
      ⟨false, none, some unsupportedFormatError⟩ :=
  ⟨(magicBytes_detection_spec [0x89, 0x50, 0x4e, 0x47, 0x0d, 0x0a, 0x1a, 0x0a]
      (by decide)).1.mpr rfl,
    (magicBytes_detection_spec [0x52, 0x49, 0x46, 0x46, 0x99, 0x98, 0x97, 0x96,
      0x57, 0x45, 0x42, 0x50] (by decide)).2.2.1.mpr
      ⟨by decide, rfl, rfl⟩,
    (magicBytes_detection_spec [0x00, 0x01, 0x02, 0x03] (by decide)).2.2.2.2.2.2
      (by decide)⟩

end RemoveBG
